import Mathlib

/-!
Verification of the naisu competitive fulfillment engine.

This file gives a shallow embedding, in Lean 4, of the decision logic of
the naisu repository (crates naisu-agent and naisu-sui): the bid
computation and winner selection in naisu-agent/src/solver.rs, the
per-protocol solver shells in naisu-agent/src/bots, the protocol registry
in naisu-agent/src/config/network.rs, the transaction-graph builder in
naisu-sui/src/ptb.rs, and the round-processing loop of
naisu-agent/src/bin/solver_daemon.rs.

Machine integers are modelled as Nat; where the Rust code performs a
fixed-width operation whose overflow behaviour matters, an explicit
reduction modulo 2 to the 16 or 2 to the 64 is written, matching the two
complement wrap of a release build (a debug build would panic at exactly
the same inputs, so every statement below that excludes the wrapping
inputs by hypothesis is valid under either build profile).

Floating point values (the market_apy estimate parameter and the
confidence field of a bid) are modelled as rationals; the code never
computes with them, it only stores literals and passes them around, so
the modelling is faithful on every path the theorems touch.
-/

/-- Width constant for u16 wrap, 2 to the 16. -/
def U16_MOD : Nat := 65536

/-- Width constant for u64 wrap, 2 to the 64. -/
def U64_MOD : Nat := 18446744073709551616

/-- Solver configuration, from naisu-agent/src/solver.rs (struct SolverConfig). -/
structure SolverConfig where
  name : String
  min_profit_bps : Nat
  gas_cost_bps : Nat
  max_slippage_bps : Nat
deriving DecidableEq, Repr

/-- A bid from a solver, from naisu-agent/src/solver.rs (struct Bid).
The confidence field is an f64 in the source; it is stored and compared
but never computed with, so it is modelled as a rational. -/
structure Bid where
  solver_name : String
  apy : Nat
  profit_bps : Nat
  confidence : ℚ
deriving DecidableEq, Repr

/-- Intent request from user, from naisu-agent/src/solver.rs (struct IntentRequest). -/
structure IntentRequest where
  id : String
  user : String
  amount : Nat
  min_apy : Nat
  deadline : Nat
deriving DecidableEq, Repr

/-- Solver errors, from naisu-agent/src/solver.rs (enum SolverError). -/
inductive SolverError where
  | IntentUnavailable (msg : String)
  | FulfillmentFailed (msg : String)
  | RaceLost
  | MarketDataUnavailable
deriving DecidableEq, Repr

/-- calculate_bid from naisu-agent/src/solver.rs lines 111-128.
The source computes
  spread = market_apy.saturating_sub(user_min)           (u64, clamped at 0)
  required = (gas_cost_bps + min_profit_bps) as u64      (u16 addition)
  if spread <= required then None
  else Some(market_apy - min_profit_bps as u64)          (u64 subtraction).
Nat subtraction is the saturating one, so spread needs no adjustment; the
u16 addition and the u64 subtraction wrap in a release build and are
modelled with explicit mod. -/
def calculate_bid (market_apy user_min gas_cost_bps min_profit_bps : Nat) : Option Nat :=
  let spread := market_apy - user_min
  let required := (gas_cost_bps + min_profit_bps) % U16_MOD
  if spread ≤ required then none
  else some ((market_apy + U64_MOD - min_profit_bps) % U64_MOD)

/-- Modelled from the spec: calculate_bid under exact integer semantics,
with no fixed-width wrap anywhere; the subtraction market_apy - user_min
is still clamped at zero as the spec asks. Used only to compare the real
function against the exact-arithmetic reading of the spec. -/
def calculate_bid_exact (market_apy user_min gas_cost_bps min_profit_bps : Nat) : Option Nat :=
  let spread := market_apy - user_min
  let required := gas_cost_bps + min_profit_bps
  if spread ≤ required then none
  else some (market_apy - min_profit_bps)

/-- One step of Iterator::max_by over bids compared by apy, from
select_winner in naisu-agent/src/solver.rs lines 134-138. Rust
Iterator::max_by keeps the later element when the comparison says the
two are equal, so the accumulated element survives only when it is
strictly greater. -/
def swStep (acc : Option Bid) (b : Bid) : Option Bid :=
  match acc with
  | none => some b
  | some m => if b.apy < m.apy then some m else some b

/-- select_winner from naisu-agent/src/solver.rs lines 134-138:
filter the bids whose apy is at least min_apy, then max_by on apy
(keeping the last maximal element on ties). -/
def select_winner (bids : List Bid) (min_apy : Nat) : Option Bid :=
  (bids.filter (fun b => decide (min_apy ≤ b.apy))).foldl swStep none

/-- Network type, from naisu-agent/src/config/network.rs (enum Network). -/
inductive Network where
  | Testnet
  | Mainnet
deriving DecidableEq, BEq, Repr

/-- Protocol types, from naisu-agent/src/config/network.rs (enum Protocol). -/
inductive Protocol where
  | NativeStaking
  | DeepBook
  | Scallop
  | Navi
  | Cetus
deriving DecidableEq, BEq, Repr

/-- Network::supported_protocols, from naisu-agent/src/config/network.rs
lines 44-59. -/
def Network.supported_protocols : Network → List Protocol
  | .Testnet => [Protocol.NativeStaking, Protocol.DeepBook, Protocol.Cetus]
  | .Mainnet => [Protocol.Cetus, Protocol.Scallop, Protocol.Navi,
                 Protocol.NativeStaking, Protocol.DeepBook]

/-- Protocol::is_available, from naisu-agent/src/config/network.rs
lines 120-139: an explicit match over (protocol, network) pairs with a
catch-all false arm. -/
def Protocol.is_available (p : Protocol) (network : Network) : Bool :=
  match p, network with
  | .NativeStaking, .Testnet => true
  | .DeepBook, .Testnet => true
  | .NativeStaking, .Mainnet => true
  | .DeepBook, .Mainnet => true
  | .Scallop, .Mainnet => true
  | .Navi, .Mainnet => true
  | .Cetus, .Testnet => true
  | .Cetus, .Mainnet => true
  | _, _ => false

/-- Protocol configuration for each network, from
naisu-agent/src/config/network.rs (struct ProtocolConfig). -/
structure ProtocolConfig where
  network : Network
  protocol : Protocol
  package_id : String
  module : String
  config_objects : List (String × String)
deriving DecidableEq, BEq, Repr

/-- ProtocolConfig::get, from naisu-agent/src/config/network.rs lines
154-364: the full literal table, one arm per supported (protocol,
network) pair, with a catch-all None arm. -/
def ProtocolConfig.get (protocol : Protocol) (network : Network) : Option ProtocolConfig :=
  match protocol, network with
  | .NativeStaking, .Testnet => some
      { network := network, protocol := protocol
        package_id := "0x3"
        module := "sui_system"
        config_objects := [("sui_system_state", "0x5"), ("clock", "0x6")] }
  | .DeepBook, .Testnet => some
      { network := network, protocol := protocol
        package_id := "0x000000000000000000000000000000000000000000000000000000000000dee9"
        module := "clob_v2"
        config_objects := [] }
  | .Cetus, .Testnet => some
      { network := network, protocol := protocol
        package_id := "0x5372d555ac734e272659136c2a0cd3227f9b92de67c80dc11250307268af2db8"
        module := "pool"
        config_objects :=
          [("published_at",
            "0x6bbdf09f9fa0baa1524080a5b8991042e95061c4e1206217279aec51ba08edf7"),
           ("global_config",
            "0x9774e359588ead122af1c7e7f64e14ade261cfeecdb5d0eb4a5b3b4c8ab8bd3e"),
           ("pools_id",
            "0x50eb61dd5928cec5ea04711a2e9b72e5237e79e9fbcd2ce3d5469dc8708e0ee2"),
           ("config_package",
            "0xf5ff7d5ba73b581bca6b4b9fa0049cd320360abd154b809f8700a8fd3cfaf7ca"),
           ("integrate_package",
            "0x2918cf39850de6d5d94d8196dc878c8c722cd79db659318e00bff57fbb4e2ede"),
           ("global_vault",
            "0xf78d2ee3c312f298882cb680695e5e8c81b1d441a646caccc058006c2851ddea")] }
  | .NativeStaking, .Mainnet => some
      { network := network, protocol := protocol
        package_id := "0x3"
        module := "sui_system"
        config_objects := [("sui_system_state", "0x5"), ("clock", "0x6")] }
  | .Scallop, .Mainnet => some
      { network := network, protocol := protocol
        package_id := "0xd384ded6b9e7f4d2c4c9007b0291ef88fbfed8e709bce83d2da69de2d79d013d"
        module := "mint"
        config_objects :=
          [("market",
            "0xa757975255146dc9686aa823b7838b507f315d704f428cbadad2f4ea061939d9"),
           ("version",
            "0x07871c4b3c847a0f674510d4978d5cf6f960452795e8ff6f189fd2088a3f6ac7"),
           ("version_cap",
            "0x38527d154618d1fd5a644b90717fe07cf0e9f26b46b63e9568e611a3f86d5c1a"),
           ("admin_cap",
            "0x09689d018e71c337d9db6d67cbca06b74ed92196103624028ccc3ecea411777c")] }
  | .Navi, .Mainnet => some
      { network := network, protocol := protocol
        package_id := "0xee0041239b89564ce870a7dec5ddc5d114367ab94a1137e90aa0633cb76518e0"
        module := "incentive_v3"
        config_objects :=
          [("storage",
            "0xbb4e2f4b6205c2e2a2db47aeb4f830796ec7c005f88537ee775986639bc442fe")] }
  | .DeepBook, .Mainnet => some
      { network := network, protocol := protocol
        package_id := "0x000000000000000000000000000000000000000000000000000000000000dee9"
        module := "clob_v2"
        config_objects := [] }
  | .Cetus, .Mainnet => some
      { network := network, protocol := protocol
        package_id := "0x1eabed72c53feb3805120a081dc15963c204dc8d091542592abaf7a35689b2fb"
        module := "pool"
        config_objects :=
          [("global_config",
            "0xdaa46292632c3c4d8f31f23ea0f9b36a28ff3677e9684980e4438403a67a3d8f"),
           ("pools_id",
            "0xf699e7f2276f5c9a75944b37a0c5b5d9ddfd2471bf6242483b03ab2887d198d0"),
           ("global_vault",
            "0xce7bceef26d3ad1f6d9b6f13a953f053e6ed3ca77907516481ce99ae8e588f2b"),
           ("config_package",
            "0x95b8d278b876cae22206131fb9724f701c9444515813042f54f0a426c9a3bc2f"),
           ("integrate_package",
            "0x996c4d9480708fb8b92aa7acf819fb0497b5ec8e65ba06601cae2fb6db3312c3"),
           ("published_at",
            "0xc6faf3703b0e8ba9ed06b7851134bbbe7565eb35ff823fd78432baa4cbeaa12e")] }
  | _, _ => none

/-- Staking solver, from naisu-agent/src/bots/staking_solver.rs
(struct StakingSolver). -/
structure StakingSolver where
  config : SolverConfig
  validator : String
deriving DecidableEq, Repr

/-- StakingSolver::new, from staking_solver.rs lines 35-45. -/
def StakingSolver.new : StakingSolver :=
  { config := { name := "StakingSolver", min_profit_bps := 20,
                gas_cost_bps := 15, max_slippage_bps := 0 }
    validator := "0x44b1b319e23495995fc837dafd28fc6af8b645edddff0fc1467f1ad631362c23" }

/-- StakingSolver::get_staking_apy_bps, from staking_solver.rs lines
49-54: a constant. -/
def StakingSolver.get_staking_apy_bps (_self : StakingSolver) : Nat := 900

/-- StakingSolver::evaluate, from staking_solver.rs lines 63-80. The
market_apy parameter is received but never read (the binder is named
with a leading underscore in the source). -/
def StakingSolver.evaluate (self : StakingSolver) (intent : IntentRequest)
    (_market_apy : ℚ) : Option Bid :=
  (calculate_bid self.get_staking_apy_bps intent.min_apy
      self.config.gas_cost_bps self.config.min_profit_bps).map
    (fun apy => { solver_name := self.config.name, apy := apy,
                  profit_bps := self.config.min_profit_bps, confidence := 1 })

/-- DeepBook solver, from naisu-agent/src/bots/deepbook_solver.rs. -/
structure DeepBookSolver where
  config : SolverConfig
deriving DecidableEq, Repr

/-- DeepBookSolver::new, from deepbook_solver.rs lines 33-42. -/
def DeepBookSolver.new : DeepBookSolver :=
  { config := { name := "DeepBookSolver", min_profit_bps := 30,
                gas_cost_bps := 15, max_slippage_bps := 50 } }

/-- DeepBookSolver::get_market_apy_bps, from deepbook_solver.rs lines
46-48: a constant. -/
def DeepBookSolver.get_market_apy_bps (_self : DeepBookSolver) : Nat := 500

/-- DeepBookSolver::evaluate, from deepbook_solver.rs lines 57-72; the
market_apy parameter is never read. -/
def DeepBookSolver.evaluate (self : DeepBookSolver) (intent : IntentRequest)
    (_market_apy : ℚ) : Option Bid :=
  (calculate_bid self.get_market_apy_bps intent.min_apy
      self.config.gas_cost_bps self.config.min_profit_bps).map
    (fun apy => { solver_name := self.config.name, apy := apy,
                  profit_bps := self.config.min_profit_bps, confidence := 88/100 })

/-- DeepBookSolver::fulfill, from deepbook_solver.rs lines 74-93: after
logging, it unconditionally returns the FulfillmentFailed error whose
message says the protocol needs CLOB market making. -/
def DeepBookSolver.fulfill (_self : DeepBookSolver) (_intent : IntentRequest) :
    Except SolverError String :=
  .error (.FulfillmentFailed
    "DeepBook fulfillment requires CLOB market making. Consider using Scallop (simple deposit) instead.")

/-- Scallop solver, from naisu-agent/src/bots/scallop_solver.rs. -/
structure ScallopSolver where
  config : SolverConfig
deriving DecidableEq, Repr

/-- ScallopSolver::new, from scallop_solver.rs lines 52-61. -/
def ScallopSolver.new : ScallopSolver :=
  { config := { name := "ScallopSolver", min_profit_bps := 20,
                gas_cost_bps := 10, max_slippage_bps := 50 } }

/-- ScallopSolver::get_market_apy_bps, from scallop_solver.rs lines
65-67: a constant. -/
def ScallopSolver.get_market_apy_bps (_self : ScallopSolver) : Nat := 850

/-- ScallopSolver::evaluate, from scallop_solver.rs lines 76-91; the
market_apy parameter is never read, and no availability check is made. -/
def ScallopSolver.evaluate (self : ScallopSolver) (intent : IntentRequest)
    (_market_apy : ℚ) : Option Bid :=
  (calculate_bid self.get_market_apy_bps intent.min_apy
      self.config.gas_cost_bps self.config.min_profit_bps).map
    (fun apy => { solver_name := self.config.name, apy := apy,
                  profit_bps := self.config.min_profit_bps, confidence := 95/100 })

/-- Navi solver, from naisu-agent/src/bots/navi_solver.rs. -/
structure NaviSolver where
  config : SolverConfig
deriving DecidableEq, Repr

/-- NaviSolver::new, from navi_solver.rs lines 41-50. -/
def NaviSolver.new : NaviSolver :=
  { config := { name := "NaviSolver", min_profit_bps := 15,
                gas_cost_bps := 10, max_slippage_bps := 50 } }

/-- NaviSolver::get_market_apy_bps, from navi_solver.rs lines 54-56. -/
def NaviSolver.get_market_apy_bps (_self : NaviSolver) : Nat := 800

/-- NaviSolver::evaluate, from navi_solver.rs lines 65-80; the
market_apy parameter is never read, and no availability check is made. -/
def NaviSolver.evaluate (self : NaviSolver) (intent : IntentRequest)
    (_market_apy : ℚ) : Option Bid :=
  (calculate_bid self.get_market_apy_bps intent.min_apy
      self.config.gas_cost_bps self.config.min_profit_bps).map
    (fun apy => { solver_name := self.config.name, apy := apy,
                  profit_bps := self.config.min_profit_bps, confidence := 95/100 })

/-- Parameters of the Navi fulfillment path, from
naisu-agent/src/executor/real_executor.rs (struct NaviFulfillmentParams). -/
structure NaviFulfillmentParams where
  intent_id : String
  user_address : String
  amount : Nat
  navi_package : String
  navi_storage : String
  asset_id : Nat
deriving DecidableEq, Repr

/-- execute_navi_fulfillment, from real_executor.rs lines 461-472: the
parameters are received but unused and the function unconditionally
returns an error saying the protocol needs an account-based
implementation. The anyhow error is modelled by its message string. -/
def execute_navi_fulfillment (_params : NaviFulfillmentParams) : Except String String :=
  .error "Navi fulfillment requires account-based implementation. Consider using Scallop (token-based) instead."

/-- NaviSolver::fulfill, from navi_solver.rs lines 82-114: builds the
parameter record, calls execute_navi_fulfillment, and maps an error e to
SolverError::FulfillmentFailed(e.to_string()). -/
def NaviSolver.fulfill (_self : NaviSolver) (intent : IntentRequest) :
    Except SolverError String :=
  let params : NaviFulfillmentParams :=
    { intent_id := intent.id, user_address := intent.user, amount := intent.amount
      navi_package := "0xee0041239b89564ce870a7dec5ddc5d114367ab94a1137e90aa0633cb76518e0"
      navi_storage := "0xbb4e2f4b6205c2e2a2db47aeb4f830796ec7c005f88537ee775986639bc442fe"
      asset_id := 0 }
  match execute_navi_fulfillment params with
  | .ok tx_digest => .ok tx_digest
  | .error e => .error (.FulfillmentFailed e)

/-- Cetus solver, from naisu-agent/src/bots/cetus_solver.rs (struct
CetusSolver): unlike the other four, it stores the network and the
registry lookup result. -/
structure CetusSolver where
  config : SolverConfig
  network : Network
  protocol_config : Option ProtocolConfig
deriving DecidableEq, Repr

/-- CetusSolver::new, from cetus_solver.rs lines 71-84: the registry is
consulted once at construction. -/
def CetusSolver.new (network : Network) : CetusSolver :=
  { config := { name := "CetusSolver", min_profit_bps := 30,
                gas_cost_bps := 20, max_slippage_bps := 100 }
    network := network
    protocol_config := ProtocolConfig.get Protocol.Cetus network }

/-- CetusSolver::get_market_apy_bps, from cetus_solver.rs lines 88-93. -/
def CetusSolver.get_market_apy_bps (self : CetusSolver) : Nat :=
  match self.network with
  | .Testnet => 1200
  | .Mainnet => 1500

/-- CetusSolver::is_available, from cetus_solver.rs lines 130-132. -/
def CetusSolver.is_available (self : CetusSolver) : Bool :=
  self.protocol_config.isSome

/-- CetusSolver::evaluate, from cetus_solver.rs lines 141-162: returns
None at once when the stored registry lookup was empty; the market_apy
parameter is never read. -/
def CetusSolver.evaluate (self : CetusSolver) (intent : IntentRequest)
    (_market_apy : ℚ) : Option Bid :=
  if !self.is_available then none
  else
    (calculate_bid self.get_market_apy_bps intent.min_apy
        self.config.gas_cost_bps self.config.min_profit_bps).map
      (fun apy => { solver_name := self.config.name, apy := apy,
                    profit_bps := self.config.min_profit_bps, confidence := 85/100 })

/-- PTB argument kinds, from naisu-sui/src/ptb.rs (enum PtbArgument).
The u16 indices are modelled as Nat; the as-u16 truncation at creation
sites is written explicitly where the source casts. -/
inductive PtbArgument where
  | GasCoin
  | Input (index : Nat)
  | Result (index : Nat)
  | NestedResult (index : Nat) (result_index : Nat)
deriving DecidableEq, Repr

/-- Move call command payload, from ptb.rs (struct MoveCallCommand). -/
structure MoveCallCommand where
  package : String
  module : String
  function : String
  type_arguments : List String
  arguments : List PtbArgument
deriving DecidableEq, Repr

/-- Transfer objects command payload, from ptb.rs. -/
structure TransferObjectsCommand where
  objects : List PtbArgument
  address : PtbArgument
deriving DecidableEq, Repr

/-- Split coins command payload, from ptb.rs. -/
structure SplitCoinsCommand where
  coin : PtbArgument
  amounts : List PtbArgument
deriving DecidableEq, Repr

/-- Merge coins command payload, from ptb.rs. -/
structure MergeCoinsCommand where
  destination : PtbArgument
  sources : List PtbArgument
deriving DecidableEq, Repr

/-- PTB command kinds, from ptb.rs (enum PtbCommand). -/
inductive PtbCommand where
  | MoveCall (c : MoveCallCommand)
  | TransferObjects (c : TransferObjectsCommand)
  | SplitCoins (c : SplitCoinsCommand)
  | MergeCoins (c : MergeCoinsCommand)
deriving DecidableEq, Repr

/-- PTB input kinds, from ptb.rs (enum PtbInput). -/
inductive PtbInput where
  | Object (object_id : String) (version : Nat) (digest : String)
  | Pure (value : List Nat)
  | SharedObject (object_id : String) (initial_shared_version : Nat) (mutable : Bool)
deriving DecidableEq, Repr

/-- PTB builder state, from ptb.rs (struct PtbBuilder). -/
structure PtbBuilder where
  commands : List PtbCommand
  inputs : List PtbInput
deriving DecidableEq, Repr

/-- Complete PTB structure, from ptb.rs (struct ProgrammableTransactionBlock). -/
structure ProgrammableTransactionBlock where
  inputs : List PtbInput
  commands : List PtbCommand
deriving DecidableEq, Repr

/-- PtbBuilder::new, from ptb.rs lines 88-90 (Default gives empty vectors). -/
def PtbBuilder.new : PtbBuilder := { commands := [], inputs := [] }

/-- PtbBuilder::add_input, from ptb.rs lines 93-97: pushes the input and
returns an Input reference with the previous length as index (cast to
u16 in the source, hence the mod). -/
def PtbBuilder.add_input (self : PtbBuilder) (input : PtbInput) :
    PtbBuilder × PtbArgument :=
  ({ self with inputs := self.inputs ++ [input] },
   PtbArgument.Input (self.inputs.length % U16_MOD))

/-- PtbBuilder::move_call, from ptb.rs lines 129-146: pushes the command
with whatever argument list it was handed (no validation of Result or
NestedResult indices anywhere) and returns a Result reference to the new
command. -/
def PtbBuilder.move_call (self : PtbBuilder) (package module function : String)
    (type_args : List String) (args : List PtbArgument) :
    PtbBuilder × PtbArgument :=
  ({ self with commands := self.commands ++
      [PtbCommand.MoveCall
        { package := package, module := module, function := function,
          type_arguments := type_args, arguments := args }] },
   PtbArgument.Result (self.commands.length % U16_MOD))

/-- PtbBuilder::transfer_objects, from ptb.rs lines 149-155: pushes the
command unconditionally; no reference is returned. -/
def PtbBuilder.transfer_objects (self : PtbBuilder) (objects : List PtbArgument)
    (address : PtbArgument) : PtbBuilder :=
  { self with commands := self.commands ++
      [PtbCommand.TransferObjects { objects := objects, address := address }] }

/-- PtbBuilder::split_coins, from ptb.rs lines 158-163: pushes the
command unconditionally and returns a Result reference to it. -/
def PtbBuilder.split_coins (self : PtbBuilder) (coin : PtbArgument)
    (amounts : List PtbArgument) : PtbBuilder × PtbArgument :=
  ({ self with commands := self.commands ++
      [PtbCommand.SplitCoins { coin := coin, amounts := amounts }] },
   PtbArgument.Result (self.commands.length % U16_MOD))

/-- PtbBuilder::merge_coins, from ptb.rs lines 166-172: pushes the
command unconditionally; no reference is returned. -/
def PtbBuilder.merge_coins (self : PtbBuilder) (destination : PtbArgument)
    (sources : List PtbArgument) : PtbBuilder :=
  { self with commands := self.commands ++
      [PtbCommand.MergeCoins { destination := destination, sources := sources }] }

/-- PtbBuilder::build, from ptb.rs lines 175-180: repackages the two
vectors with no check of any kind. -/
def PtbBuilder.build (self : PtbBuilder) : ProgrammableTransactionBlock :=
  { inputs := self.inputs, commands := self.commands }

/-- Closed sum of the concrete solver values the daemon can hold, from
the trait-object vector in naisu-agent/src/bin/solver_daemon.rs. -/
inductive SolverImpl where
  | staking (s : StakingSolver)
  | deepbook (s : DeepBookSolver)
  | scallop (s : ScallopSolver)
  | navi (s : NaviSolver)
  | cetus (s : CetusSolver)
deriving DecidableEq, Repr

/-- Dispatch of Solver::name over the concrete solvers (each returns the
name field of its config). -/
def SolverImpl.name : SolverImpl → String
  | .staking s => s.config.name
  | .deepbook s => s.config.name
  | .scallop s => s.config.name
  | .navi s => s.config.name
  | .cetus s => s.config.name

/-- Dispatch of Solver::evaluate over the concrete solvers. -/
def SolverImpl.evaluate (s : SolverImpl) (intent : IntentRequest)
    (market_apy : ℚ) : Option Bid :=
  match s with
  | .staking s => s.evaluate intent market_apy
  | .deepbook s => s.evaluate intent market_apy
  | .scallop s => s.evaluate intent market_apy
  | .navi s => s.evaluate intent market_apy
  | .cetus s => s.evaluate intent market_apy

/-- The protocol each solver variant wraps. -/
def SolverImpl.protocol : SolverImpl → Protocol
  | .staking _ => Protocol.NativeStaking
  | .deepbook _ => Protocol.DeepBook
  | .scallop _ => Protocol.Scallop
  | .navi _ => Protocol.Navi
  | .cetus _ => Protocol.Cetus

/-- The solver list the daemon builds per network, from
SolverDaemon::new in solver_daemon.rs lines 68-94. -/
def daemonSolvers : Network → List SolverImpl
  | .Testnet => [.staking StakingSolver.new, .deepbook DeepBookSolver.new]
  | .Mainnet => [.staking StakingSolver.new, .scallop ScallopSolver.new,
                 .navi NaviSolver.new, .cetus (CetusSolver.new .Mainnet),
                 .deepbook DeepBookSolver.new]

/-- SolverDaemon::evaluate_intent, from solver_daemon.rs lines 178-198:
asks every solver in order with the fixed market_apy estimate 0.08 and
keeps the Some results. -/
def daemonEvaluateIntent (network : Network) (intent : IntentRequest) : List Bid :=
  (daemonSolvers network).filterMap (fun s => s.evaluate intent (8/100))

/-- Observable steps of one pass of the daemon loop, used to state
ordering properties of SolverDaemon::run. -/
inductive DaemonAction where
  | markProcessed (id : String)
  | startEvaluation (id : String)
  | attemptFulfill (id : String)
deriving DecidableEq, Repr

/-- The intent identifier an action is about. -/
def DaemonAction.intentId : DaemonAction → String
  | .markProcessed id => id
  | .startEvaluation id => id
  | .attemptFulfill id => id

/-- Whether SolverDaemon::execute_winning_bid reaches a fulfill call,
from solver_daemon.rs lines 201-225: a winner must be selected and a
solver with the winning name must be found in the solver list. -/
def fulfillAttempted (network : Network) (intent : IntentRequest)
    (bids : List Bid) : Bool :=
  match select_winner bids intent.min_apy with
  | none => false
  | some w => ((daemonSolvers network).find?
      (fun s => s.name == w.solver_name)).isSome

/-- Processing of one intent inside the loop body of SolverDaemon::run,
solver_daemon.rs lines 249-272: first the id is inserted into the
processed set (line 260), then the solvers are evaluated (line 263), and
only then, when bids exist and a winner is found, fulfillment is
attempted (line 271). The processed set is modelled as a list of ids. -/
def processIntent (network : Network) (processed : List String)
    (intent : IntentRequest) : List String × List DaemonAction :=
  let processed1 := intent.id :: processed
  let bids := daemonEvaluateIntent network intent
  let tr :=
    [DaemonAction.markProcessed intent.id, DaemonAction.startEvaluation intent.id] ++
      (if bids.isEmpty then []
       else if fulfillAttempted network intent bids
         then [DaemonAction.attemptFulfill intent.id] else [])
  (processed1, tr)

/-- Sequential processing of the batch returned by one poll, from the
for-loop of SolverDaemon::run. -/
def processBatch (network : Network) (processed : List String) :
    List IntentRequest → List String × List DaemonAction
  | [] => (processed, [])
  | i :: rest =>
      let r1 := processIntent network processed i
      let r2 := processBatch network r1.1 rest
      (r2.1, r1.2 ++ r2.2)

/-- One full poll-and-process round: SolverDaemon::poll_intents
(solver_daemon.rs lines 107-146) drops every parsed intent whose id is
already in the processed set, then SolverDaemon::run processes the
survivors in order. The events argument stands for the parsed event
batch the RPC query returned. -/
def runRound (network : Network) (processed : List String)
    (events : List IntentRequest) : List String × List DaemonAction :=
  processBatch network processed
    (events.filter (fun i => !(processed.contains i.id)))

/-- Iterated rounds of the daemon loop over successive event batches. -/
def runRounds (network : Network) (processed : List String) :
    List (List IntentRequest) → List String × List DaemonAction
  | [] => (processed, [])
  | evts :: rest =>
      let r1 := runRound network processed evts
      let r2 := runRounds network r1.1 rest
      (r2.1, r1.2 ++ r2.2)

/-- Checks that along a trace, every evaluation or fulfillment action on
an id comes after a markProcessed action on the same id (or the id was
in the seen set to begin with). -/
def marksPrecede (seen : List String) : List DaemonAction → Bool
  | [] => true
  | .markProcessed id :: rest => marksPrecede (id :: seen) rest
  | .startEvaluation id :: rest => seen.contains id && marksPrecede seen rest
  | .attemptFulfill id :: rest => seen.contains id && marksPrecede seen rest

/-- Number of markProcessed actions for a given id in a trace; each such
action is the start of one auction round for that intent. -/
def countMarks (id : String) (tr : List DaemonAction) : Nat :=
  tr.countP (fun a => decide (a = DaemonAction.markProcessed id))

/-- Modelled from the spec: the explicit deterministic tie-break rule
for winner selection. Among the bids whose apy reaches min_apy, the
winner is the LAST bid in input order whose apy is maximal (Rust
Iterator::max_by keeps the later of two equal elements). Used to state
that select_winner is a deterministic function of the input order. -/
def selectWinnerLastSpec (bids : List Bid) (min_apy : Nat) : Option Bid :=
  let q := bids.filter (fun b => decide (min_apy ≤ b.apy))
  (q.filter (fun b => q.all (fun c => decide (c.apy ≤ b.apy)))).getLast?

/-- Claim C1 (amended): for market_apy and user_min in the u64 range and
gas_cost_bps + min_profit_bps at most 65535 (so the internal u16
addition does not wrap), calculate_bid returns nothing iff the zero
clamped spread market_apy - user_min is at most gas_cost_bps +
min_profit_bps, and otherwise returns exactly market_apy -
min_profit_bps; on the concrete inputs 850, 750, 10, 20 it returns 830.
The added hypothesis on the u16 sum is forced by the counterexample
calculate_bid_profit_iff_cex below. -/
theorem calculate_bid_profit_iff (m u g p : Nat) (hm : m < U64_MOD)
    (hgp : g + p ≤ 65535) :
    ((calculate_bid m u g p = none ↔ m - u ≤ g + p) ∧
      (g + p < m - u → calculate_bid m u g p = some (m - p))) ∧
      calculate_bid 850 750 10 20 = some 830 := by
  have hmod : (g + p) % U16_MOD = g + p := by
    unfold U16_MOD; omega
  constructor
  · constructor
    · unfold calculate_bid
      rw [hmod]
      by_cases hc : m - u ≤ g + p
      · simp [hc]
      · simp [hc]
    · intro hlt
      unfold calculate_bid
      rw [hmod, if_neg (by omega)]
      have hpm : p ≤ m := by omega
      have hstep : m + U64_MOD - p = U64_MOD + (m - p) := by
        unfold U64_MOD at *; omega
      rw [hstep, Nat.add_mod_left, Nat.mod_eq_of_lt (by unfold U64_MOD at *; omega)]
  · decide

/-- Witness for calculate_bid_profit_iff at the concrete inputs of
scenario A. -/
theorem calculate_bid_profit_iff_witness :
    (calculate_bid 850 750 10 20 = none ↔ (850 : Nat) - 750 ≤ 10 + 20) ∧
      calculate_bid 850 750 10 20 = some 830 :=
  ⟨(calculate_bid_profit_iff 850 750 10 20 (by decide) (by decide)).1.1,
   (calculate_bid_profit_iff 850 750 10 20 (by decide) (by decide)).2⟩

/-- Claim C1 counterexample: with gas_cost_bps = 40000 and
min_profit_bps = 40000 the clamped spread 20000 is below the exact sum
80000, so the claim says no bid; but the u16 addition wraps to 14464,
the guard passes, and the u64 subtraction 20000 - 40000 wraps, so the
code returns a bid (a release build returns this wrapped value, a debug
build panics; under neither semantics does it return nothing). -/
theorem calculate_bid_profit_iff_cex :
    calculate_bid 20000 0 40000 40000 = some 18446744073709531616 ∧
      (20000 : Nat) - 0 ≤ 40000 + 40000 := by
  constructor
  · decide
  · decide

/-- Claim C9 (amended): provided gas_cost_bps + min_profit_bps is at
most 65535, calculate_bid agrees with its exact integer semantics
calculate_bid_exact on every market_apy in the u64 range: the u16
addition does not wrap, and whenever a bid is produced min_profit_bps is
at most market_apy so the u64 subtraction does not wrap either. The
hypothesis is forced by calculate_bid_total_cex below. -/
theorem calculate_bid_total (m u g p : Nat) (hm : m < U64_MOD)
    (hgp : g + p ≤ 65535) :
    calculate_bid m u g p = calculate_bid_exact m u g p := by
  unfold calculate_bid calculate_bid_exact
  have hmod : (g + p) % U16_MOD = g + p := by
    unfold U16_MOD; omega
  rw [hmod]
  by_cases hc : m - u ≤ g + p
  · simp [hc]
  · rw [if_neg hc, if_neg hc]
    have hpm : p ≤ m := by omega
    have hstep : m + U64_MOD - p = U64_MOD + (m - p) := by
      unfold U64_MOD at *; omega
    rw [hstep, Nat.add_mod_left, Nat.mod_eq_of_lt (by unfold U64_MOD at *; omega)]

/-- Witness for calculate_bid_total at the concrete inputs of
scenario A. -/
theorem calculate_bid_total_witness :
    calculate_bid 850 750 10 20 = calculate_bid_exact 850 750 10 20 :=
  calculate_bid_total 850 750 10 20 (by decide) (by decide)

/-- Claim C9 counterexample: at gas_cost_bps = min_profit_bps = 33000
the u16 addition 66000 exceeds 65535 and wraps to 464, so the guard that
exact semantics would fail is passed and the u64 subtraction
30000 - 33000 wraps; the function is not faithful to exact integer
semantics over the full input domain (in a debug build these inputs
panic instead). -/
theorem calculate_bid_total_cex :
    calculate_bid 30000 0 33000 33000 ≠ calculate_bid_exact 30000 0 33000 33000 ∧
      65535 < 33000 + 33000 := by
  constructor
  · decide
  · decide

/-- Helper: folding swStep from a some accumulator yields an element of
the accumulator-plus-list whose apy dominates all of them. -/
theorem swFold_some_max (l : List Bid) : ∀ m : Bid,
    ∃ w, l.foldl swStep (some m) = some w ∧ (w = m ∨ w ∈ l) ∧
      m.apy ≤ w.apy ∧ ∀ x ∈ l, x.apy ≤ w.apy := by
  induction l with
  | nil =>
    intro m
    exact ⟨m, rfl, Or.inl rfl, le_refl _, by simp⟩
  | cons b t ih =>
    intro m
    by_cases h : b.apy < m.apy
    · obtain ⟨w, hw, hmem, hge, hall⟩ := ih m
      refine ⟨w, ?_, ?_, hge, ?_⟩
      · rw [List.foldl_cons]
        simpa [swStep, h] using hw
      · rcases hmem with h1 | h1
        · exact Or.inl h1
        · exact Or.inr (List.mem_cons_of_mem _ h1)
      · intro x hx
        rcases List.mem_cons.mp hx with h1 | h1
        · subst h1; omega
        · exact hall x h1
    · obtain ⟨w, hw, hmem, hge, hall⟩ := ih b
      refine ⟨w, ?_, ?_, by omega, ?_⟩
      · rw [List.foldl_cons]
        simpa [swStep, h] using hw
      · rcases hmem with h1 | h1
        · exact Or.inr (by simp [h1])
        · exact Or.inr (List.mem_cons_of_mem _ h1)
      · intro x hx
        rcases List.mem_cons.mp hx with h1 | h1
        · subst h1; exact hge
        · exact hall x h1

/-- Helper: folding swStep from none gives none exactly on the empty
list. -/
theorem swFold_none_iff (l : List Bid) :
    l.foldl swStep none = none ↔ l = [] := by
  cases l with
  | nil => simp
  | cons b t =>
    rw [List.foldl_cons]
    obtain ⟨w, hw, -, -, -⟩ := swFold_some_max t b
    simp [swStep, hw]

/-- Claim C3: select_winner returns none exactly when no input bid
reaches min_apy (in particular on the empty list), and any returned
winner is an input bid reaching min_apy whose apy dominates every input
bid that reaches min_apy; on scenario C (bids A 820, B 800, C 810 with
min 750, field values from the unit test in solver.rs) the winner is A
with 820. -/
theorem select_winner_spec (bids : List Bid) (min_apy : Nat) :
    ((select_winner bids min_apy = none ↔ ∀ b ∈ bids, b.apy < min_apy) ∧
      (∀ w, select_winner bids min_apy = some w →
        w ∈ bids ∧ min_apy ≤ w.apy ∧
          ∀ b ∈ bids, min_apy ≤ b.apy → b.apy ≤ w.apy)) ∧
      select_winner
        [{ solver_name := "A", apy := 820, profit_bps := 30, confidence := 9/10 },
         { solver_name := "B", apy := 800, profit_bps := 20, confidence := 8/10 },
         { solver_name := "C", apy := 810, profit_bps := 25, confidence := 85/100 }] 750 =
        some { solver_name := "A", apy := 820, profit_bps := 30, confidence := 9/10 } := by
  constructor
  · constructor
    · unfold select_winner
      rw [swFold_none_iff, List.filter_eq_nil_iff]
      simp
    · intro w hw
      unfold select_winner at hw
      rcases hq : bids.filter (fun b => decide (min_apy ≤ b.apy)) with _ | ⟨b, t⟩
      · rw [hq] at hw; simp at hw
      · rw [hq, List.foldl_cons] at hw
        obtain ⟨w', hw', hmem, hge, hall⟩ := swFold_some_max t b
        rw [show swStep none b = some b from rfl] at hw
        rw [hw'] at hw
        obtain rfl : w' = w := by injection hw
        have hwq : w' ∈ bids.filter (fun b => decide (min_apy ≤ b.apy)) := by
          rw [hq]
          rcases hmem with h1 | h1
          · simp [h1]
          · exact List.mem_cons_of_mem _ h1
        have hwq' := List.mem_filter.mp hwq
        refine ⟨hwq'.1, by simpa using hwq'.2, ?_⟩
        intro x hx hxmin
        have hxq : x ∈ bids.filter (fun b => decide (min_apy ≤ b.apy)) :=
          List.mem_filter.mpr ⟨hx, by simpa using hxmin⟩
        rw [hq] at hxq
        rcases List.mem_cons.mp hxq with h1 | h1
        · subst h1; exact hge
        · exact hall x h1
  · rfl

/-- Witness for select_winner_spec: the winner properties extracted at
the concrete scenario C bid list. -/
theorem select_winner_spec_witness :
    ({ solver_name := "A", apy := 820, profit_bps := 30, confidence := 9/10 : Bid }) ∈
        [{ solver_name := "A", apy := 820, profit_bps := 30, confidence := 9/10 : Bid },
         { solver_name := "B", apy := 800, profit_bps := 20, confidence := 8/10 },
         { solver_name := "C", apy := 810, profit_bps := 25, confidence := 85/100 }] ∧
      (750 : Nat) ≤ 820 :=
  let l : List Bid :=
    [{ solver_name := "A", apy := 820, profit_bps := 30, confidence := 9/10 },
     { solver_name := "B", apy := 800, profit_bps := 20, confidence := 8/10 },
     { solver_name := "C", apy := 810, profit_bps := 25, confidence := 85/100 }]
  ⟨((select_winner_spec l 750).1.2 _ (select_winner_spec l 750).2).1,
   ((select_winner_spec l 750).1.2 _ (select_winner_spec l 750).2).2.1⟩

/-- Helper: the max_by fold over any bid list returns exactly the last
element, in list order, whose apy is maximal. -/
theorem swFold_eq_lastMax (q : List Bid) :
    q.foldl swStep none =
      (q.filter (fun b => q.all (fun c => decide (c.apy ≤ b.apy)))).getLast? := by
  induction q using List.reverseRecOn with
  | nil => rfl
  | append_singleton l b ih =>
    rw [List.foldl_append]
    rcases hfold : l.foldl swStep none with _ | m
    · have hl : l = [] := (swFold_none_iff l).mp hfold
      subst hl
      simp [swStep]
    · have hspec : (l.filter (fun x => l.all (fun c => decide (c.apy ≤ x.apy)))).getLast?
          = some m := by rw [← ih]; exact hfold
      have hm_in := List.mem_of_mem_getLast? hspec
      have hm_l : m ∈ l := (List.mem_filter.mp hm_in).1
      have hm_max : ∀ c ∈ l, c.apy ≤ m.apy := by
        have := (List.mem_filter.mp hm_in).2
        rw [List.all_eq_true] at this
        intro c hc
        simpa using this c hc
      by_cases hb : b.apy < m.apy
      · have hlhs : List.foldl swStep (some m) [b] = some m := by
          simp [swStep, hb]
        rw [hlhs]
        have hpb : (l ++ [b]).all (fun c => decide (c.apy ≤ b.apy)) = false := by
          rw [Bool.eq_false_iff]
          intro hcall
          rw [List.all_eq_true] at hcall
          have := hcall m (List.mem_append_left _ hm_l)
          simp at this
          omega
        rw [List.filter_append]
        have hcongr : l.filter (fun x => (l ++ [b]).all (fun c => decide (c.apy ≤ x.apy)))
            = l.filter (fun x => l.all (fun c => decide (c.apy ≤ x.apy))) := by
          apply List.filter_congr
          intro x hx
          rw [List.all_append]
          rcases hpl : l.all (fun c => decide (c.apy ≤ x.apy)) with _ | _
          · simp
          · rw [List.all_eq_true] at hpl
            have hmx := hpl m hm_l
            simp at hmx
            simp
            omega
        rw [hcongr]
        have hnil : List.filter (fun x => (l ++ [b]).all fun c => decide (c.apy ≤ x.apy)) [b]
            = [] := by
          simp only [List.filter_cons, List.filter_nil, hpb]
          simp
        rw [hnil, List.append_nil]
        exact hspec.symm
      · have hlhs : List.foldl swStep (some m) [b] = some b := by
          simp [swStep, hb]
        rw [hlhs]
        have hpb : (l ++ [b]).all (fun c => decide (c.apy ≤ b.apy)) = true := by
          rw [List.all_eq_true]
          intro c hc
          rcases List.mem_append.mp hc with h1 | h1
          · have := hm_max c h1
            simp
            omega
          · simp at h1
            subst h1
            simp
        rw [List.filter_append]
        have hfb : List.filter (fun x => (l ++ [b]).all fun c => decide (c.apy ≤ x.apy)) [b]
            = [b] := by
          simp only [List.filter_cons, List.filter_nil, hpb]
          simp
        rw [hfb, List.getLast?_concat]

/-- Claim C6: select_winner equals an explicitly deterministic rule of
the input order, namely the last bid in input order with maximal apy
among those reaching min_apy, so in particular two calls on the same
bid list in the same order (tied maximal bids or not) return the same
winner; the second conjunct shows the rule on a concrete two-way tie,
where the later of the two tied bids wins. -/
theorem select_winner_tie_deterministic (bids : List Bid) (min_apy : Nat) :
    select_winner bids min_apy = selectWinnerLastSpec bids min_apy ∧
      select_winner
        [{ solver_name := "X", apy := 800, profit_bps := 20, confidence := 9/10 },
         { solver_name := "Y", apy := 800, profit_bps := 20, confidence := 9/10 }] 700 =
        some { solver_name := "Y", apy := 800, profit_bps := 20, confidence := 9/10 } :=
  ⟨swFold_eq_lastMax (bids.filter (fun b => decide (min_apy ≤ b.apy))), rfl⟩

/-- Claim C2 counterexample: starting from an empty builder (command
count 0), move_call accepts an argument list containing the reference
Result 0 (an index not below the current command count, here a self
reference of the command being appended); no error is possible (the
function is total), the returned handle is that same command, and the
self-referential argument reaches the built TxGraph unchanged. -/
theorem ptb_builder_no_validation_cex :
    PtbBuilder.new.commands.length = 0 ∧
      (PtbBuilder.new.move_call "0xpkg" "pool" "swap" [] [PtbArgument.Result 0]).1.build =
        { inputs := [],
          commands := [PtbCommand.MoveCall
            { package := "0xpkg", module := "pool", function := "swap",
              type_arguments := [], arguments := [PtbArgument.Result 0] }] } ∧
      (PtbBuilder.new.move_call "0xpkg" "pool" "swap" [] [PtbArgument.Result 0]).2 =
        PtbArgument.Result 0 :=
  ⟨rfl, rfl, rfl⟩

/-- Claim C2 (amended): the builder performs no construction-time
validation at all. For every builder state and every argument list
(including Result or NestedResult references at or beyond the current
command count), each of the four command kinds is appended
unconditionally, the arguments are stored unchanged in the built
TxGraph, and the returned handle of move_call and split_coins is the
Result reference of the new command. -/
theorem ptb_builder_append_only (b : PtbBuilder) (pkg modl fname : String)
    (targs : List String) (args : List PtbArgument) (coin : PtbArgument)
    (amounts : List PtbArgument) (dest : PtbArgument) (sources : List PtbArgument)
    (objs : List PtbArgument) (addr : PtbArgument) :
    ((b.move_call pkg modl fname targs args).1.build.commands
        = b.commands ++ [PtbCommand.MoveCall
            { package := pkg, module := modl, function := fname,
              type_arguments := targs, arguments := args }]) ∧
      ((b.move_call pkg modl fname targs args).2
        = PtbArgument.Result (b.commands.length % U16_MOD)) ∧
      ((b.split_coins coin amounts).1.build.commands
        = b.commands ++ [PtbCommand.SplitCoins { coin := coin, amounts := amounts }]) ∧
      ((b.split_coins coin amounts).2
        = PtbArgument.Result (b.commands.length % U16_MOD)) ∧
      ((b.merge_coins dest sources).build.commands
        = b.commands ++ [PtbCommand.MergeCoins { destination := dest, sources := sources }]) ∧
      ((b.transfer_objects objs addr).build.commands
        = b.commands ++ [PtbCommand.TransferObjects { objects := objs, address := addr }]) :=
  ⟨rfl, rfl, rfl, rfl, rfl, rfl⟩

/-- Claim C5: the fulfillment paths without a viable
transferable-position representation always fail with a typed error,
independent of the input. DeepBookSolver fulfill returns, for every
intent, the fixed FulfillmentFailed error explaining that CLOB market
making is needed; execute_navi_fulfillment returns, for every parameter
record, its fixed account-based-implementation error, and NaviSolver
fulfill wraps exactly that message in the typed FulfillmentFailed
constructor. No Ok and no other outcome is possible. -/
theorem unsupported_fulfillment_paths :
    (∀ (s : DeepBookSolver) (i : IntentRequest),
        s.fulfill i = Except.error (SolverError.FulfillmentFailed
          "DeepBook fulfillment requires CLOB market making. Consider using Scallop (simple deposit) instead.")) ∧
      (∀ p : NaviFulfillmentParams, execute_navi_fulfillment p = Except.error
          "Navi fulfillment requires account-based implementation. Consider using Scallop (token-based) instead.") ∧
      (∀ (s : NaviSolver) (i : IntentRequest),
        s.fulfill i = Except.error (SolverError.FulfillmentFailed
          "Navi fulfillment requires account-based implementation. Consider using Scallop (token-based) instead.")) :=
  ⟨fun _ _ => rfl, fun _ => rfl, fun _ _ => rfl⟩

/-- Claim C8: the registry lookup is consistent with the advertised
protocol sets: for every protocol and network, ProtocolConfig.get is
Some exactly when the protocol is listed by supported_protocols, which
agrees with is_available, and any returned configuration carries the
queried network and protocol in its fields. -/
theorem protocol_registry_consistent (p : Protocol) (n : Network) :
    ((ProtocolConfig.get p n).isSome = (n.supported_protocols).contains p) ∧
      ((n.supported_protocols).contains p = p.is_available n) ∧
      ((ProtocolConfig.get p n).all
        (fun c => c.network == n && c.protocol == p) = true) := by
  cases p <;> cases n <;> exact ⟨rfl, rfl, rfl⟩

/-- Claim C10: every solver variant ignores the market_apy estimate
parameter of evaluate: with the same intent, any two estimate values
give identical results, for each of the five concrete solvers and for
the daemon-level dispatch over them. -/
theorem evaluate_ignores_market_estimate :
    (∀ (s : StakingSolver) (i : IntentRequest) (m1 m2 : ℚ),
        s.evaluate i m1 = s.evaluate i m2) ∧
      (∀ (s : DeepBookSolver) (i : IntentRequest) (m1 m2 : ℚ),
        s.evaluate i m1 = s.evaluate i m2) ∧
      (∀ (s : ScallopSolver) (i : IntentRequest) (m1 m2 : ℚ),
        s.evaluate i m1 = s.evaluate i m2) ∧
      (∀ (s : NaviSolver) (i : IntentRequest) (m1 m2 : ℚ),
        s.evaluate i m1 = s.evaluate i m2) ∧
      (∀ (s : CetusSolver) (i : IntentRequest) (m1 m2 : ℚ),
        s.evaluate i m1 = s.evaluate i m2) ∧
      (∀ (sv : SolverImpl) (i : IntentRequest) (m1 m2 : ℚ),
        sv.evaluate i m1 = sv.evaluate i m2) := by
  refine ⟨fun _ _ _ _ => rfl, fun _ _ _ _ => rfl, fun _ _ _ _ => rfl,
    fun _ _ _ _ => rfl, fun _ _ _ _ => rfl, ?_⟩
  intro sv i m1 m2
  cases sv <;> rfl

/-- Claim C4 counterexample: the registry has no configuration for
Scallop on Testnet, yet the Scallop solver (which never consults the
registry and carries no network at all) still returns a bid for an
intent with minimum apy 750; so it is not the case that every solver
variant abstains when its (protocol, network) pair is unsupported. -/
theorem solver_availability_cex :
    ProtocolConfig.get Protocol.Scallop Network.Testnet = none ∧
      ScallopSolver.new.evaluate
        { id := "0x1", user := "0xu", amount := 1000000000,
          min_apy := 750, deadline := 3600 } (8/100) =
        some { solver_name := "ScallopSolver", apy := 830, profit_bps := 20,
               confidence := 95/100 } :=
  ⟨rfl, rfl⟩

/-- Claim C4 (amended): only the Cetus solver consults the registry,
and it does return no bid (and can return no error, the result type
being an option) whenever its stored registry lookup is empty; the
other four solver variants do not consult the registry at all. The
daemon nonetheless never fields an unavailable solver, because the
solver list it builds for each network contains only solvers whose
protocols that network advertises. -/
theorem solver_availability_amended :
    (∀ (s : CetusSolver) (i : IntentRequest) (m : ℚ),
        s.protocol_config = none → s.evaluate i m = none) ∧
      (∀ n : Network, (daemonSolvers n).all
        (fun sv => sv.protocol.is_available n) = true) := by
  constructor
  · intro s i m h
    unfold CetusSolver.evaluate CetusSolver.is_available
    rw [h]
    rfl
  · intro n
    cases n <;> rfl

/-- Witness for solver_availability_amended: a Cetus solver state with
an empty registry lookup abstains on a concrete intent. -/
theorem solver_availability_amended_witness :
    CetusSolver.evaluate
      { config := { name := "CetusSolver", min_profit_bps := 30,
                    gas_cost_bps := 20, max_slippage_bps := 100 },
        network := Network.Testnet, protocol_config := none }
      { id := "0x1", user := "0xu", amount := 1, min_apy := 0, deadline := 0 } 0 =
      none :=
  solver_availability_amended.1 _ _ _ rfl

/-- Helper: the trace of one intent is its mark then its evaluation
start, possibly followed by one fulfillment attempt. -/
theorem processIntent_trace_shape (n : Network) (s : List String) (i : IntentRequest) :
    (processIntent n s i).2 =
        [DaemonAction.markProcessed i.id, DaemonAction.startEvaluation i.id] ∨
      (processIntent n s i).2 =
        [DaemonAction.markProcessed i.id, DaemonAction.startEvaluation i.id,
         DaemonAction.attemptFulfill i.id] := by
  unfold processIntent
  dsimp only
  split_ifs <;> simp

/-- Helper: the processed set after a batch is the batch ids, newest
first, on top of the incoming set. -/
theorem processBatch_state (n : Network) :
    ∀ (l : List IntentRequest) (s : List String),
      (processBatch n s l).1 = (l.map (fun i => i.id)).reverse ++ s := by
  intro l
  induction l with
  | nil => intro s; rfl
  | cons i t ih =>
    intro s
    show (processBatch n (i.id :: s) t).1 = _
    rw [ih]
    simp

/-- Helper: every action a batch trace contains concerns an id of the
batch. -/
theorem processBatch_trace_ids (n : Network) :
    ∀ (l : List IntentRequest) (s : List String),
      ∀ a ∈ (processBatch n s l).2, a.intentId ∈ l.map (fun i => i.id) := by
  intro l
  induction l with
  | nil => intro s a ha; simp [processBatch] at ha
  | cons i t ih =>
    intro s a ha
    have ha2 : a ∈ (processIntent n s i).2 ++ (processBatch n (i.id :: s) t).2 := ha
    rw [List.map_cons]
    rcases List.mem_append.mp ha2 with h1 | h1
    · rcases processIntent_trace_shape n s i with hs | hs
      · rw [hs] at h1
        simp at h1
        rcases h1 with h | h <;> subst h <;> simp [DaemonAction.intentId]
      · rw [hs] at h1
        simp at h1
        rcases h1 with h | h | h <;> subst h <;> simp [DaemonAction.intentId]
    · exact List.mem_cons_of_mem _ (ih (i.id :: s) a h1)

/-- Helper: in every batch trace, an id is marked before it is
evaluated or fulfilled, whatever the starting seen set. -/
theorem marksPrecede_batch (n : Network) :
    ∀ (l : List IntentRequest) (s : List String) (seen : List String),
      marksPrecede seen (processBatch n s l).2 = true := by
  intro l
  induction l with
  | nil => intro s seen; rfl
  | cons i t ih =>
    intro s seen
    have h2 : (processBatch n s (i :: t)).2
        = (processIntent n s i).2 ++ (processBatch n (i.id :: s) t).2 := rfl
    rw [h2]
    rcases processIntent_trace_shape n s i with hs | hs <;> rw [hs] <;>
      simp [marksPrecede, List.contains, ih (i.id :: s) (i.id :: seen)]

/-- Helper: the number of marks a batch emits for an id equals the
number of batch entries carrying that id. -/
theorem processBatch_countMarks (n : Network) (id : String) :
    ∀ (l : List IntentRequest) (s : List String),
      countMarks id (processBatch n s l).2 = (l.map (fun i => i.id)).count id := by
  intro l
  induction l with
  | nil => intro s; rfl
  | cons i t ih =>
    intro s
    have h2 : (processBatch n s (i :: t)).2
        = (processIntent n s i).2 ++ (processBatch n (i.id :: s) t).2 := rfl
    rw [h2]
    unfold countMarks
    rw [List.countP_append]
    have hblock : (processIntent n s i).2.countP
        (fun a => decide (a = DaemonAction.markProcessed id)) =
          if i.id = id then 1 else 0 := by
      rcases processIntent_trace_shape n s i with hs | hs <;> rw [hs] <;>
        by_cases h : i.id = id <;> simp [h]
    have ihc := ih (i.id :: s)
    unfold countMarks at ihc
    rw [hblock, ihc, List.map_cons, List.count_cons]
    by_cases h : i.id = id
    · simp [h]
      omega
    · simp [h]

/-- Helper: a round never emits any action for an id that is already in
the processed set when the round begins. -/
theorem runRound_skips_processed (n : Network) (s : List String)
    (evts : List IntentRequest) (id : String) (hs : s.contains id = true) :
    ∀ a ∈ (runRound n s evts).2, a.intentId ≠ id := by
  intro a ha hcontra
  have hmem := processBatch_trace_ids n
    (evts.filter (fun i => !(s.contains i.id))) s a ha
  rw [hcontra] at hmem
  obtain ⟨i, hi, hid⟩ := List.mem_map.mp hmem
  have hpred := (List.mem_filter.mp hi).2
  rw [hid] at hpred
  simp only [Bool.not_eq_true'] at hpred
  rw [hs] at hpred
  simp at hpred

/-- Helper: once an id is in the processed set, no later round ever
marks it again. -/
theorem runRounds_countMarks_zero (n : Network) (id : String) :
    ∀ (batches : List (List IntentRequest)) (s : List String),
      s.contains id = true → countMarks id (runRounds n s batches).2 = 0 := by
  intro batches
  induction batches with
  | nil => intro s _; rfl
  | cons evts bs ih =>
    intro s hs
    have h2 : (runRounds n s (evts :: bs)).2
        = (runRound n s evts).2 ++ (runRounds n (runRound n s evts).1 bs).2 := rfl
    rw [h2]
    unfold countMarks
    rw [List.countP_append]
    have hround : (runRound n s evts).2.countP
        (fun a => decide (a = DaemonAction.markProcessed id)) = 0 := by
      have hcm := processBatch_countMarks n id
        (evts.filter (fun i => !(s.contains i.id))) s
      unfold countMarks at hcm
      rw [show (runRound n s evts).2
          = (processBatch n s (evts.filter (fun i => !(s.contains i.id)))).2 from rfl,
        hcm, List.count_eq_zero]
      intro hmem
      obtain ⟨i, hi, hid⟩ := List.mem_map.mp hmem
      have hpred := (List.mem_filter.mp hi).2
      rw [hid] at hpred
      simp only [Bool.not_eq_true'] at hpred
      rw [hs] at hpred
      simp at hpred
    have hstate : (runRound n s evts).1.contains id = true := by
      have h1 : (runRound n s evts).1
          = ((evts.filter (fun i => !(s.contains i.id))).map
              (fun i => i.id)).reverse ++ s :=
        processBatch_state n _ s
      rw [h1, List.elem_iff]
      rw [List.elem_iff] at hs
      exact List.mem_append_right _ hs
    have hrest := ih (runRound n s evts).1 hstate
    unfold countMarks at hrest
    omega

/-- Helper: when every batch is free of duplicate ids, the whole run
marks any given id at most once. -/
theorem runRounds_countMarks_le_one (n : Network) (id : String) :
    ∀ (batches : List (List IntentRequest)) (s : List String),
      (∀ b ∈ batches, (b.map (fun i => i.id)).Nodup) →
      countMarks id (runRounds n s batches).2 ≤ 1 := by
  intro batches
  induction batches with
  | nil => intro s _; simp [runRounds, countMarks]
  | cons evts bs ih =>
    intro s hnd
    by_cases hs : s.contains id = true
    · have h0 := runRounds_countMarks_zero n id (evts :: bs) s hs
      omega
    · have h2 : (runRounds n s (evts :: bs)).2
          = (runRound n s evts).2 ++ (runRounds n (runRound n s evts).1 bs).2 := rfl
      rw [h2]
      unfold countMarks
      rw [List.countP_append]
      have hround : (runRound n s evts).2.countP
          (fun a => decide (a = DaemonAction.markProcessed id)) =
            ((evts.filter (fun i => !(s.contains i.id))).map
              (fun i => i.id)).count id := by
        have hcm := processBatch_countMarks n id
          (evts.filter (fun i => !(s.contains i.id))) s
        unfold countMarks at hcm
        exact hcm
      have hle : ((evts.filter (fun i => !(s.contains i.id))).map
          (fun i => i.id)).count id ≤ 1 := by
        have hsub : List.Sublist
            ((evts.filter (fun i => !(s.contains i.id))).map (fun i => i.id))
            (evts.map (fun i => i.id)) :=
          List.Sublist.map _ (List.filter_sublist _)
        have hc1 := List.Sublist.count_le hsub id
        have hc2 := List.nodup_iff_count_le_one.mp (hnd evts (by simp)) id
        omega
      rcases Nat.eq_zero_or_pos (((evts.filter (fun i => !(s.contains i.id))).map
          (fun i => i.id)).count id) with hc | hc
      · have hrest := ih (runRound n s evts).1
          (fun b hb => hnd b (List.mem_cons_of_mem _ hb))
        unfold countMarks at hrest
        omega
      · have hmem : id ∈ (evts.filter (fun i => !(s.contains i.id))).map
            (fun i => i.id) := List.count_pos_iff.mp hc
        have hstate : (runRound n s evts).1.contains id = true := by
          have h1 : (runRound n s evts).1
              = ((evts.filter (fun i => !(s.contains i.id))).map
                  (fun i => i.id)).reverse ++ s :=
            processBatch_state n _ s
          rw [h1, List.elem_iff]
          exact List.mem_append_left _ (List.mem_reverse.mpr hmem)
        have hrest := runRounds_countMarks_zero n id bs (runRound n s evts).1 hstate
        unfold countMarks at hrest
        omega

/-- Claim C7: the round-processing loop handles each intent id at most
once. First, an id already in the processed set is filtered out during
polling and produces no action at all in the round. Second, in every
round trace the mark of an id comes before its evaluation start and its
fulfillment attempt. Third, across any run over batches without
internal duplicates, each id is marked (that is, starts an auction
round) at most once. -/
theorem daemon_processed_once (n : Network) (s : List String)
    (evts : List IntentRequest) (batches : List (List IntentRequest)) (id : String) :
    (s.contains id = true → ∀ a ∈ (runRound n s evts).2, a.intentId ≠ id) ∧
      marksPrecede [] (runRound n s evts).2 = true ∧
      ((∀ b ∈ batches, (b.map (fun i => i.id)).Nodup) →
        countMarks id (runRounds n s batches).2 ≤ 1) :=
  ⟨fun hs => runRound_skips_processed n s evts id hs,
   marksPrecede_batch n _ s [],
   fun hnd => runRounds_countMarks_le_one n id batches s hnd⟩

/-- Witness for daemon_processed_once at a concrete processed set, an
empty event batch and a one-batch run. -/
theorem daemon_processed_once_witness :
    (∀ a ∈ (runRound Network.Testnet ["0xabc"] []).2, a.intentId ≠ "0xabc") ∧
      countMarks "0xabc" (runRounds Network.Testnet ["0xabc"] [[]]).2 ≤ 1 :=
  ⟨(daemon_processed_once Network.Testnet ["0xabc"] [] [[]] "0xabc").1 rfl,
   (daemon_processed_once Network.Testnet ["0xabc"] [] [[]] "0xabc").2.2
     (by intro b hb; simp at hb; subst hb; simp)⟩
